import Mathlib

/-!
Verification of the resilient data-access layer of the `api_produto_echo`
repository (Go).  The Go source is shallowly embedded: pure functions become
Lean functions, the MongoDB collection becomes an explicit document-list
state threaded through the operations, `time.Duration` values are integers
(nanoseconds), `float64` arithmetic on retry delays is modelled over `ℚ`
(exact for the multipliers that occur), and Go maps are modelled either as
association lists (when iteration order matters) or by their lookup
behaviour.  Fallible Go functions return `Except`/`Option`-shaped results.
-/

/-! ## Errors (internal/errors and the mongo driver error classes) -/

/-- Errors produced by the mongo driver layer, at the granularity the Go code
distinguishes them: network errors, timeouts, the disconnected-client
sentinel, and plain `errors.New` strings such as "not found". -/
inductive DBError where
  | network (msg : String)
  | timeout (msg : String)
  | clientDisconnected
  | errString (msg : String)
deriving Repr, DecidableEq

/-- The Go `error.Error()` message of a `DBError`; the service layer compares
it against the literal "not found". -/
def DBError.message : DBError → String
  | .network m => m
  | .timeout m => m
  | .clientDisconnected => "client is disconnected"
  | .errString m => m

/-! ## Retry executor (package database, part_007) -/

/-- `database.RetryableError`: network errors, timeouts and the
disconnected-client sentinel are transient; everything else (including a nil
error) is not. -/
def RetryableError : Option DBError → Bool
  | none => false
  | some (DBError.network _) => true
  | some (DBError.timeout _) => true
  | some DBError.clientDisconnected => true
  | some (DBError.errString _) => false

/-- `database.RetryOptions`.  Delays are `time.Duration` = int64 nanoseconds;
the `float64` multiplier is modelled as a rational. -/
structure RetryOptions where
  MaxAttempts : Int
  InitialDelay : Int
  MaxDelay : Int
  Multiplier : Rat
deriving Repr, DecidableEq

/-- `database.DefaultRetryOptions()`: 3 attempts, 100ms, 5s, multiplier 2.0. -/
def DefaultRetryOptions : RetryOptions :=
  { MaxAttempts := 3
    InitialDelay := 100000000
    MaxDelay := 5000000000
    Multiplier := 2 }

/-- Go's `time.Duration(float64(x))` conversion truncates toward zero. -/
def truncToInt (x : Rat) : Int :=
  if x < 0 then ⌈x⌉ else ⌊x⌋

/-- The delay update at the bottom of the retry loop:
`delay = Duration(float64(delay) * Multiplier); if delay > MaxDelay { delay = MaxDelay }`. -/
def nextDelay (opts : RetryOptions) (delay : Int) : Int :=
  let nd := truncToInt ((delay : Rat) * opts.Multiplier)
  if nd > opts.MaxDelay then opts.MaxDelay else nd

/-- Outcome of a retried operation: success, a non-retryable error returned
as-is, the `fmt.Errorf("max retry attempts (%d) reached: %w", MaxAttempts,
lastErr)` wrapper, or the context-cancellation error. -/
inductive RetryResult (α : Type) where
  | ok (a : α)
  | err (e : DBError)
  | exhausted (maxAttempts : Int) (lastErr : Option DBError)
  | canceled
deriving Repr, DecidableEq

/-- Observable behaviour of one `Retry`/`RetryWithResult` call: how many times
the wrapped closure ran, which delays were waited (in order), the returned
value/error, and the final state of the closure's environment. -/
structure RetryTrace (σ α : Type) where
  attempts : Nat
  waits : List Int
  result : RetryResult α
  state : σ
deriving Repr, DecidableEq

/-- Loop of `database.Retry`.  `fuel` is the number of attempts still allowed
including the current one (`opts.MaxAttempts - attempt + 1`), `attempt` the
1-based attempt counter, `delay` the current backoff delay, `s` the state of
the impure closure `fn` (whose result `none` means a nil error).  `ctx n`
tells whether the caller's context is cancelled during the wait that follows
attempt `n`. -/
def retryAux {σ : Type} (ctx : Nat → Bool) (fn : σ → Option DBError × σ)
    (opts : RetryOptions) : Nat → Nat → Int → σ → RetryTrace σ Unit
  | 0, _, _, s => ⟨0, [], .exhausted opts.MaxAttempts none, s⟩
  | fuel + 1, attempt, delay, s =>
    match fn s with
    | (none, s1) => ⟨1, [], .ok (), s1⟩
    | (some e, s1) =>
      if RetryableError (some e) = false then ⟨1, [], .err e, s1⟩
      else if fuel = 0 then ⟨1, [], .exhausted opts.MaxAttempts (some e), s1⟩
      else if ctx attempt then ⟨1, [], .canceled, s1⟩
      else
        let t := retryAux ctx fn opts fuel (attempt + 1) (nextDelay opts delay) s1
        ⟨t.attempts + 1, delay :: t.waits, t.result, t.state⟩

/-- `database.Retry(ctx, fn, opts)` run from closure state `s`. -/
def Retry {σ : Type} (ctx : Nat → Bool) (fn : σ → Option DBError × σ)
    (opts : RetryOptions) (s : σ) : RetryTrace σ Unit :=
  retryAux ctx fn opts opts.MaxAttempts.toNat 1 opts.InitialDelay s

/-- Loop of `database.RetryWithResult`; identical to `retryAux` except that
the closure returns a value on success. -/
def retryWRAux {σ α : Type} (ctx : Nat → Bool) (fn : σ → Except DBError α × σ)
    (opts : RetryOptions) : Nat → Nat → Int → σ → RetryTrace σ α
  | 0, _, _, s => ⟨0, [], .exhausted opts.MaxAttempts none, s⟩
  | fuel + 1, attempt, delay, s =>
    match fn s with
    | (.ok a, s1) => ⟨1, [], .ok a, s1⟩
    | (.error e, s1) =>
      if RetryableError (some e) = false then ⟨1, [], .err e, s1⟩
      else if fuel = 0 then ⟨1, [], .exhausted opts.MaxAttempts (some e), s1⟩
      else if ctx attempt then ⟨1, [], .canceled, s1⟩
      else
        let t := retryWRAux ctx fn opts fuel (attempt + 1) (nextDelay opts delay) s1
        ⟨t.attempts + 1, delay :: t.waits, t.result, t.state⟩

/-- `database.RetryWithResult(ctx, fn, opts)` run from closure state `s`. -/
def RetryWithResult {σ α : Type} (ctx : Nat → Bool) (fn : σ → Except DBError α × σ)
    (opts : RetryOptions) (s : σ) : RetryTrace σ α :=
  retryWRAux ctx fn opts opts.MaxAttempts.toNat 1 opts.InitialDelay s

/-- The backoff delay sequence of length `n` starting at `d`: each element is
followed by its capped multiple. -/
def delaysFrom (opts : RetryOptions) : Int → Nat → List Int
  | _, 0 => []
  | d, n + 1 => d :: delaysFrom opts (nextDelay opts d) n

theorem delaysFrom_length (opts : RetryOptions) (d : Int) (n : Nat) :
    (delaysFrom opts d n).length = n := by
  induction n generalizing d with
  | zero => rfl
  | succ n ih => simp [delaysFrom, ih]

theorem retryAux_allTransient {σ : Type} (ctx : Nat → Bool)
    (err : σ → DBError) (nxt : σ → σ) (opts : RetryOptions)
    (htrans : ∀ s, RetryableError (some (err s)) = true)
    (hctx : ∀ n, ctx n = false) :
    ∀ (fuel : Nat) (attempt : Nat) (d : Int) (s : σ), 1 ≤ fuel →
      retryAux ctx (fun s => (some (err s), nxt s)) opts fuel attempt d s =
        ⟨fuel, delaysFrom opts d (fuel - 1),
          .exhausted opts.MaxAttempts (some (err (nxt^[fuel - 1] s))),
          nxt^[fuel] s⟩ := by
  intro fuel
  induction fuel with
  | zero => intro _ _ _ h; omega
  | succ fuel ih =>
    intro attempt d s _
    by_cases hf : fuel = 0
    · subst hf
      simp [retryAux, htrans s, delaysFrom]
    · have h1 : 1 ≤ fuel := Nat.one_le_iff_ne_zero.mpr hf
      have hrec := ih (attempt + 1) (nextDelay opts d) (nxt s) h1
      have e1 : delaysFrom opts d fuel =
          d :: delaysFrom opts (nextDelay opts d) (fuel - 1) := by
        conv_lhs => rw [show fuel = (fuel - 1) + 1 from by omega]
        simp [delaysFrom]
      have e2 : nxt^[fuel - 1] (nxt s) = nxt^[fuel] s := by
        conv_rhs => rw [show fuel = (fuel - 1) + 1 from by omega]
        rw [Function.iterate_succ_apply]
      have e3 : nxt^[fuel + 1] s = nxt^[fuel] (nxt s) :=
        Function.iterate_succ_apply nxt fuel s
      simp [retryAux, htrans s, hctx attempt, hrec, hf, e1, e2, e3]

theorem retryWRAux_allTransient {σ α : Type} (ctx : Nat → Bool)
    (err : σ → DBError) (nxt : σ → σ) (opts : RetryOptions)
    (htrans : ∀ s, RetryableError (some (err s)) = true)
    (hctx : ∀ n, ctx n = false) :
    ∀ (fuel : Nat) (attempt : Nat) (d : Int) (s : σ), 1 ≤ fuel →
      retryWRAux (α := α) ctx (fun s => (Except.error (err s), nxt s)) opts fuel attempt d s =
        ⟨fuel, delaysFrom opts d (fuel - 1),
          .exhausted opts.MaxAttempts (some (err (nxt^[fuel - 1] s))),
          nxt^[fuel] s⟩ := by
  intro fuel
  induction fuel with
  | zero => intro _ _ _ h; omega
  | succ fuel ih =>
    intro attempt d s _
    by_cases hf : fuel = 0
    · subst hf
      simp [retryWRAux, htrans s, delaysFrom]
    · have h1 : 1 ≤ fuel := Nat.one_le_iff_ne_zero.mpr hf
      have hrec := ih (attempt + 1) (nextDelay opts d) (nxt s) h1
      have e1 : delaysFrom opts d fuel =
          d :: delaysFrom opts (nextDelay opts d) (fuel - 1) := by
        conv_lhs => rw [show fuel = (fuel - 1) + 1 from by omega]
        simp [delaysFrom]
      have e2 : nxt^[fuel - 1] (nxt s) = nxt^[fuel] s := by
        conv_rhs => rw [show fuel = (fuel - 1) + 1 from by omega]
        rw [Function.iterate_succ_apply]
      have e3 : nxt^[fuel + 1] s = nxt^[fuel] (nxt s) :=
        Function.iterate_succ_apply nxt fuel s
      simp [retryWRAux, htrans s, hctx attempt, hrec, hf, e1, e2, e3]

/-- C1: an operation that fails on every attempt with a transient error is
invoked exactly `MaxAttempts` times by both `Retry` and `RetryWithResult`;
the waits between consecutive attempts are exactly the sequence that starts
at `InitialDelay` and is repeatedly multiplied by the backoff multiplier and
capped at `MaxDelay` (`delaysFrom`), with `MaxAttempts - 1` waits — none
after the final attempt; and the returned error wraps the last underlying
error and names the attempt budget (`RetryResult.exhausted`). -/
theorem retry_exhaustion_spec {σ : Type} (ctx : Nat → Bool)
    (err : σ → DBError) (nxt : σ → σ) (opts : RetryOptions) (s : σ)
    (hmax : 1 ≤ opts.MaxAttempts)
    (htrans : ∀ s, RetryableError (some (err s)) = true)
    (hctx : ∀ n, ctx n = false) :
    Retry ctx (fun s => (some (err s), nxt s)) opts s =
      ⟨opts.MaxAttempts.toNat,
        delaysFrom opts opts.InitialDelay (opts.MaxAttempts.toNat - 1),
        .exhausted opts.MaxAttempts (some (err (nxt^[opts.MaxAttempts.toNat - 1] s))),
        nxt^[opts.MaxAttempts.toNat] s⟩ ∧
    RetryWithResult (α := Unit) ctx (fun s => (Except.error (err s), nxt s)) opts s =
      ⟨opts.MaxAttempts.toNat,
        delaysFrom opts opts.InitialDelay (opts.MaxAttempts.toNat - 1),
        .exhausted opts.MaxAttempts (some (err (nxt^[opts.MaxAttempts.toNat - 1] s))),
        nxt^[opts.MaxAttempts.toNat] s⟩ ∧
    (delaysFrom opts opts.InitialDelay (opts.MaxAttempts.toNat - 1)).length =
      opts.MaxAttempts.toNat - 1 := by
  have hfuel : 1 ≤ opts.MaxAttempts.toNat := by omega
  refine ⟨?_, ?_, delaysFrom_length _ _ _⟩
  · exact retryAux_allTransient ctx err nxt opts htrans hctx _ 1 opts.InitialDelay s hfuel
  · exact retryWRAux_allTransient ctx err nxt opts htrans hctx _ 1 opts.InitialDelay s hfuel

/-- C1 witness: with the default policy and an operation over a call counter
that always fails with a network error, both executors make 3 attempts and
wait 100ms then 200ms. -/
theorem retry_exhaustion_spec_witness :
    Retry (fun _ => false) (fun (n : Nat) => (some (DBError.network "conn"), n + 1))
        DefaultRetryOptions 0 =
      ⟨3, delaysFrom DefaultRetryOptions 100000000 2,
        .exhausted 3 (some (DBError.network "conn")), 3⟩ ∧
    delaysFrom DefaultRetryOptions 100000000 2 = [100000000, 200000000] := by
  have h := retry_exhaustion_spec (σ := Nat) (fun _ => false)
    (fun _ => DBError.network "conn") (fun n => n + 1) DefaultRetryOptions 0
    (by decide) (fun _ => rfl) (fun _ => rfl)
  have hd : delaysFrom DefaultRetryOptions 100000000 2 = [100000000, 200000000] := by
    norm_num [delaysFrom, nextDelay, truncToInt, DefaultRetryOptions]
  refine ⟨?_, hd⟩
  have h1 := h.1
  simpa [DefaultRetryOptions, Function.iterate_succ_apply] using h1

/-! ## Entity (internal/model, Produto) -/

/-- `model.Produto`.  `time.Time` values are integers (nanoseconds since the
epoch, 0 = Go's zero time); the `float64` price is modelled as a rational;
`DeletedAt *time.Time` is an optional timestamp whose absence marks a live
record (and, through the `omitempty` bson tag, an absent document field). -/
structure Produto where
  ID : Int
  Nome : String
  Preco : Rat
  Descricao : String
  CreatedAt : Int
  UpdatedAt : Int
  DeletedAt : Option Int
deriving Repr, DecidableEq

/-- `Produto.BeforeCreate`: stamp creation/modification times if zero. -/
def Produto.BeforeCreate (p : Produto) (now : Int) : Produto :=
  let p1 := if p.CreatedAt = 0 then { p with CreatedAt := now } else p
  if p1.UpdatedAt = 0 then { p1 with UpdatedAt := now } else p1

/-- `Produto.BeforeUpdate`: refresh the modification time. -/
def Produto.BeforeUpdate (p : Produto) (now : Int) : Produto :=
  { p with UpdatedAt := now }

/-! ## bson query predicates -/

/-- A scalar bson value of a stored document field. -/
inductive BVal where
  | vInt (n : Int)
  | vStr (s : String)
  | vNum (q : Rat)
  | vTime (t : Int)
deriving Repr, DecidableEq

/-- The condition objects the Go code places into query maps: equality with
an integer, a case-insensitive substring pattern (`$regex` + `$options "i"`),
an inclusive numeric range (`$gte`/`$lte`), and `$exists: false`. -/
inductive BsonCond where
  | eqInt (n : Int)
  | regexI (pattern : String)
  | range (gte : Option Rat) (lte : Option Rat)
  | existsFalse
deriving Repr, DecidableEq

/-- The bson document fields of a marshalled `Produto`; `deleted_at` is
absent when the pointer is nil (bson `omitempty`). -/
def produtoField (p : Produto) : String → Option BVal
  | "id" => some (.vInt p.ID)
  | "nome" => some (.vStr p.Nome)
  | "preco" => some (.vNum p.Preco)
  | "descricao" => some (.vStr p.Descricao)
  | "created_at" => some (.vTime p.CreatedAt)
  | "updated_at" => some (.vTime p.UpdatedAt)
  | "deleted_at" => p.DeletedAt.map BVal.vTime
  | _ => none

def charsStartWith : List Char → List Char → Bool
  | _, [] => true
  | [], _ :: _ => false
  | c :: cs, d :: ds => c == d && charsStartWith cs ds

def charsContain (need : List Char) : List Char → Bool
  | [] => charsStartWith [] need
  | c :: cs => charsStartWith (c :: cs) need || charsContain need cs

/-- Case-insensitive substring containment: the semantics of a mongo
`$regex`/`$options:"i"` condition for a metacharacter-free pattern, which is
what the query translator produces. -/
def strContainsCI (s pat : String) : Bool :=
  charsContain pat.toLower.toList s.toLower.toList

/-- Whether a document satisfies one field condition. -/
def condMatches (p : Produto) (field : String) : BsonCond → Bool
  | .eqInt n =>
    match produtoField p field with
    | some (.vInt m) => m == n
    | _ => false
  | .regexI pat =>
    match produtoField p field with
    | some (.vStr s) => strContainsCI s pat
    | _ => false
  | .range gte lte =>
    match produtoField p field with
    | some (.vNum q) =>
      (match gte with | none => true | some lo => decide (lo ≤ q)) &&
      (match lte with | none => true | some hi => decide (q ≤ hi))
    | some (.vInt m) =>
      (match gte with | none => true | some lo => decide (lo ≤ (m : Rat))) &&
      (match lte with | none => true | some hi => decide ((m : Rat) ≤ hi))
    | _ => false
  | .existsFalse => (produtoField p field).isNone

/-- A `bson.M`/`map[string]interface{}` query object, as an association list
with at most one entry per key. -/
def MongoFilter : Type := List (String × BsonCond)

/-- Go map assignment `m[k] = c`: any previous entry for `k` is replaced. -/
def mapSet (m : List (String × BsonCond)) (k : String) (c : BsonCond) :
    List (String × BsonCond) :=
  (m.filter (fun kv => kv.1 != k)) ++ [(k, c)]

/-- A document matches a query map iff it satisfies every entry. -/
def filterMatches (m : List (String × BsonCond)) (p : Produto) : Bool :=
  m.all (fun kv => condMatches p kv.1 kv.2)

/-- The filter `bson.M{"id": id, "deleted_at": bson.M{"$exists": false}}`
used by FindByID, Update, Patch and Delete. -/
def liveIdFilter (id : Int) : List (String × BsonCond) :=
  [("id", .eqInt id), ("deleted_at", .existsFalse)]

/-! ## The mongo collection as explicit state -/

/-- The collection: its documents in natural order, plus a round-trip
counter used to index the fault schedule of the transport. -/
structure MongoState where
  docs : List Produto
  calls : Nat
deriving Repr, DecidableEq

/-- One driver round-trip: if the fault schedule injects an error at this
point the operation fails (and the store is unchanged); otherwise the pure
collection operation `op` runs. -/
def mongoRT {α : Type} (faults : Nat → Option DBError) (s : MongoState)
    (op : List Produto → α × List Produto) : Except DBError α × MongoState :=
  match faults s.calls with
  | some e => (.error e, { s with calls := s.calls + 1 })
  | none =>
    let r := op s.docs
    (.ok r.1, { docs := r.2, calls := s.calls + 1 })

/-- `FindOne` with sort `{id: -1}` (no filter): the document with the
maximal identifier, soft-deleted documents included. -/
def collMaxIdDoc (docs : List Produto) : Option Produto :=
  docs.foldl
    (fun acc d =>
      match acc with
      | none => some d
      | some m => if d.ID > m.ID then some d else acc)
    none

/-- `ReplaceOne`: replace the first matching document in place; returns the
matched count (0 or 1) and the new document list. -/
def replaceFirst (pred : Produto → Bool) (new : Produto) :
    List Produto → Nat × List Produto
  | [] => (0, [])
  | d :: ds =>
    if pred d then (1, new :: ds)
    else
      let r := replaceFirst pred new ds
      (r.1, d :: r.2)

/-- `UpdateOne` with a `$set`: apply `f` to the first matching document;
returns the matched count (0 or 1) and the new document list. -/
def updateFirst (pred : Produto → Bool) (f : Produto → Produto) :
    List Produto → Nat × List Produto
  | [] => (0, [])
  | d :: ds =>
    if pred d then (1, f d :: ds)
    else
      let r := updateFirst pred f ds
      (r.1, d :: r.2)

/-- `FindOneAndUpdate` with `ReturnDocument(After)`: apply `f` to the first
matching document and return the updated document, or nothing on no match. -/
def findOneAndUpdate (pred : Produto → Bool) (f : Produto → Produto) :
    List Produto → Option Produto × List Produto
  | [] => (none, [])
  | d :: ds =>
    if pred d then (some (f d), f d :: ds)
    else
      let r := findOneAndUpdate pred f ds
      (r.1, d :: r.2)

/-! ## Sorting, skip and limit (server-side query options) -/

/-- Compare two optional field values the way the store orders them:
missing < numbers < strings < times, numerically / lexicographically inside
a bracket. -/
def bvalRank : Option BVal → Nat
  | none => 0
  | some (.vInt _) => 1
  | some (.vNum _) => 1
  | some (.vStr _) => 2
  | some (.vTime _) => 3

def bvalOptCmp (a b : Option BVal) : Ordering :=
  if bvalRank a < bvalRank b then .lt
  else if bvalRank b < bvalRank a then .gt
  else
    match a, b with
    | some (.vInt m), some (.vInt n) => compare m n
    | some (.vInt m), some (.vNum q) => compare (m : Rat) q
    | some (.vNum q), some (.vInt n) => compare q (n : Rat)
    | some (.vNum q), some (.vNum r) => compare q r
    | some (.vStr x), some (.vStr y) => compare x y
    | some (.vTime x), some (.vTime y) => compare x y
    | _, _ => .eq

/-- Compare two documents under a `bson.D` sort specification (field name,
direction 1 or -1); later entries break ties. -/
def sortCmp (spec : List (String × Int)) (a b : Produto) : Ordering :=
  match spec with
  | [] => .eq
  | (f, dir) :: rest =>
    let c := bvalOptCmp (produtoField a f) (produtoField b f)
    let c1 := if dir < 0 then c.swap else c
    match c1 with
    | .eq => sortCmp rest a b
    | o => o

def sortLe (spec : List (String × Int)) (a b : Produto) : Bool :=
  sortCmp spec a b != Ordering.gt

def orderedInsert (le : Produto → Produto → Bool) (a : Produto) :
    List Produto → List Produto
  | [] => [a]
  | b :: bs => if le a b then a :: b :: bs else b :: orderedInsert le a bs

/-- The server-side sort, modelled as an insertion sort under the given
comparison (only the ordering contract matters to the claims). -/
def sortDocs (le : Produto → Produto → Bool) : List Produto → List Produto
  | [] => []
  | a :: as => orderedInsert le a (sortDocs le as)

/-- Cursor `skip` (the repository only ever passes non-negative skips). -/
def mongoSkip (skip : Int) (l : List Produto) : List Produto :=
  l.drop skip.toNat

/-- Cursor `limit`: 0 means no limit; a negative limit behaves like its
absolute value. -/
def mongoLimit (limit : Int) (l : List Produto) : List Produto :=
  if limit = 0 then l else l.take limit.natAbs

/-! ## Repository (mongoProdutoRepository, part_000) -/

/-- A context whose cancellation signal never fires. -/
def ctxNever : Nat → Bool := fun _ => false

/-- A fault-free transport. -/
def noFaults : Nat → Option DBError := fun _ => none

/-- `getNextID`: max identifier + 1, or 1 on an empty collection
(`mongo.ErrNoDocuments`). -/
def repoGetNextID (faults : Nat → Option DBError) (s : MongoState) :
    Except DBError Int × MongoState :=
  match mongoRT faults s (fun docs => (collMaxIdDoc docs, docs)) with
  | (.error e, s1) => (.error e, s1)
  | (.ok none, s1) => (.ok 1, s1)
  | (.ok (some p), s1) => (.ok (p.ID + 1), s1)

/-- The closure `Create` hands to `RetryWithResult`: assign the next id,
stamp timestamps, insert. -/
def createAttempt (faults : Nat → Option DBError) (now : Int)
    (produto : Produto) (s : MongoState) : Except DBError Produto × MongoState :=
  match repoGetNextID faults s with
  | (.error e, s1) => (.error e, s1)
  | (.ok id, s1) =>
    let p2 := (Produto.BeforeCreate { produto with ID := id } now)
    match mongoRT faults s1 (fun docs => ((), docs ++ [p2])) with
    | (.error e, s2) => (.error e, s2)
    | (.ok _, s2) => (.ok p2, s2)

/-- `mongoProdutoRepository.Create`: the attempt wrapped in
`RetryWithResult` with the default policy. -/
def repoCreate (faults : Nat → Option DBError) (ctx : Nat → Bool) (now : Int)
    (produto : Produto) (s : MongoState) : RetryTrace MongoState Produto :=
  RetryWithResult ctx (createAttempt faults now produto) DefaultRetryOptions s

/-- `mongoProdutoRepository.FindByID` (no retry): first live document with
the identifier, or the "not found" error. -/
def repoFindByID (faults : Nat → Option DBError) (id : Int) (s : MongoState) :
    Except DBError Produto × MongoState :=
  match mongoRT faults s
      (fun docs => (docs.find? (fun d => filterMatches (liveIdFilter id) d), docs)) with
  | (.error e, s1) => (.error e, s1)
  | (.ok none, s1) => (.error (.errString "not found"), s1)
  | (.ok (some p), s1) => (.ok p, s1)

/-- The closure `Update` hands to `RetryWithResult`: look up the live
document, preserve its `CreatedAt` and `DeletedAt`, replace it. -/
def updateAttempt (faults : Nat → Option DBError) (now : Int) (id : Int)
    (produto : Produto) (s : MongoState) : Except DBError Produto × MongoState :=
  let p2 := Produto.BeforeUpdate { produto with ID := id } now
  match mongoRT faults s
      (fun docs => (docs.find? (fun d => filterMatches (liveIdFilter id) d), docs)) with
  | (.error e, s1) => (.error e, s1)
  | (.ok none, s1) => (.error (.errString "not found"), s1)
  | (.ok (some existing), s1) =>
    let p3 := { p2 with CreatedAt := existing.CreatedAt, DeletedAt := existing.DeletedAt }
    match mongoRT faults s1
        (fun docs => replaceFirst (fun d => filterMatches (liveIdFilter id) d) p3 docs) with
    | (.error e, s2) => (.error e, s2)
    | (.ok n, s2) => if n = 0 then (.error (.errString "not found"), s2) else (.ok p3, s2)

/-- `mongoProdutoRepository.Update` (replace-by-id), retried. -/
def repoUpdate (faults : Nat → Option DBError) (ctx : Nat → Bool) (now : Int)
    (id : Int) (produto : Produto) (s : MongoState) : RetryTrace MongoState Produto :=
  RetryWithResult ctx (updateAttempt faults now id produto) DefaultRetryOptions s

/-! ## Patch (part_000, lines 124-145) — note: NOT wrapped in retry -/

/-- A value stored in the untyped partial-update map. -/
inductive PVal where
  | pStr (s : String)
  | pNum (q : Rat)
  | pInt (n : Int)
  | pTime (t : Int)
deriving Repr, DecidableEq

/-- Go map assignment on the update map. -/
def mapSetP (m : List (String × PVal)) (k : String) (v : PVal) :
    List (String × PVal) :=
  (m.filter (fun kv => kv.1 != k)) ++ [(k, v)]

/-- Apply one `$set` entry to a document (keys outside the schema would add
untyped fields invisible to this model). -/
def applySetField (p : Produto) : String × PVal → Produto
  | ("nome", .pStr s) => { p with Nome := s }
  | ("descricao", .pStr s) => { p with Descricao := s }
  | ("preco", .pNum q) => { p with Preco := q }
  | ("preco", .pInt n) => { p with Preco := (n : Rat) }
  | ("updated_at", .pTime t) => { p with UpdatedAt := t }
  | ("created_at", .pTime t) => { p with CreatedAt := t }
  | ("deleted_at", .pTime t) => { p with DeletedAt := some t }
  | ("id", .pInt n) => { p with ID := n }
  | _ => p

def applySet (updates : List (String × PVal)) (p : Produto) : Produto :=
  updates.foldl applySetField p

deriving instance DecidableEq for Except

/-- What one `Patch` call yields: the result, the caller's updates map after
the call (Go maps are references, so the insertion of `updated_at` is
visible to the caller), and the store state. -/
structure PatchOut where
  result : Except DBError Produto
  updatesAfter : List (String × PVal)
  state : MongoState
deriving Repr, DecidableEq

/-- `mongoProdutoRepository.Patch`: inserts `updated_at` into the caller's
map, then a single `FindOneAndUpdate` — no retry wrapper. -/
def repoPatch (faults : Nat → Option DBError) (now : Int) (id : Int)
    (updates : List (String × PVal)) (s : MongoState) : PatchOut :=
  let updates1 := mapSetP updates "updated_at" (.pTime now)
  match mongoRT faults s
      (fun docs =>
        findOneAndUpdate (fun d => filterMatches (liveIdFilter id) d)
          (applySet updates1) docs) with
  | (.error e, s1) => ⟨.error e, updates1, s1⟩
  | (.ok none, s1) => ⟨.error (.errString "not found"), updates1, s1⟩
  | (.ok (some updated), s1) => ⟨.ok updated, updates1, s1⟩

/-- The closure `Delete` hands to `Retry`: a single `UpdateOne` that stamps
`deleted_at` and `updated_at` on the live document with the identifier. -/
def deleteAttempt (faults : Nat → Option DBError) (now : Int) (id : Int)
    (s : MongoState) : Option DBError × MongoState :=
  match mongoRT faults s
      (fun docs =>
        updateFirst (fun d => filterMatches (liveIdFilter id) d)
          (fun d => { d with DeletedAt := some now, UpdatedAt := now }) docs) with
  | (.error e, s1) => (some e, s1)
  | (.ok n, s1) => if n = 0 then (some (.errString "not found"), s1) else (none, s1)

/-- `mongoProdutoRepository.Delete` (soft delete), retried. -/
def repoDelete (faults : Nat → Option DBError) (ctx : Nat → Bool) (now : Int)
    (id : Int) (s : MongoState) : RetryTrace MongoState Unit :=
  Retry ctx (deleteAttempt faults now id) DefaultRetryOptions s

/-- `mongoProdutoRepository.FindAllPaginated`: conjoins the caller filter
with `deleted_at: {$exists: false}`, defaults the sort to ascending id,
then find + sort + skip + limit. -/
def repoFindAllPaginated (faults : Nat → Option DBError) (skip limit : Int)
    (filter : List (String × BsonCond)) (sort : List (String × Int))
    (s : MongoState) : Except DBError (List Produto) × MongoState :=
  let mongoFilter := mapSet filter "deleted_at" .existsFalse
  let sort1 := if sort.isEmpty then [(("id" : String), (1 : Int))] else sort
  mongoRT faults s
    (fun docs =>
      (mongoLimit limit
        (mongoSkip skip
          (sortDocs (sortLe sort1) (docs.filter (fun d => filterMatches mongoFilter d)))),
       docs))

/-- `mongoProdutoRepository.Count`: count under the caller filter conjoined
with `deleted_at: {$exists: false}`. -/
def repoCount (faults : Nat → Option DBError)
    (filter : List (String × BsonCond)) (s : MongoState) :
    Except DBError Int × MongoState :=
  let mongoFilter := mapSet filter "deleted_at" .existsFalse
  mongoRT faults s
    (fun docs =>
      (((docs.filter (fun d => filterMatches mongoFilter d)).length : Int), docs))

/-! ## Step lemmas for the retry loop -/

theorem retryWRAux_ok {σ α : Type} {ctx : Nat → Bool} {fn : σ → Except DBError α × σ}
    {opts : RetryOptions} {fuel attempt : Nat} {d : Int} {s s1 : σ} {a : α}
    (hfn : fn s = (.ok a, s1)) :
    retryWRAux ctx fn opts (fuel + 1) attempt d s = ⟨1, [], .ok a, s1⟩ := by
  simp [retryWRAux, hfn]

theorem retryWRAux_fatal {σ α : Type} {ctx : Nat → Bool} {fn : σ → Except DBError α × σ}
    {opts : RetryOptions} {fuel attempt : Nat} {d : Int} {s s1 : σ} {e : DBError}
    (hfn : fn s = (.error e, s1)) (hnr : RetryableError (some e) = false) :
    retryWRAux ctx fn opts (fuel + 1) attempt d s = ⟨1, [], .err e, s1⟩ := by
  simp [retryWRAux, hfn, hnr]

theorem retryAux_ok {σ : Type} {ctx : Nat → Bool} {fn : σ → Option DBError × σ}
    {opts : RetryOptions} {fuel attempt : Nat} {d : Int} {s s1 : σ}
    (hfn : fn s = (none, s1)) :
    retryAux ctx fn opts (fuel + 1) attempt d s = ⟨1, [], .ok (), s1⟩ := by
  simp [retryAux, hfn]

theorem retryAux_fatal {σ : Type} {ctx : Nat → Bool} {fn : σ → Option DBError × σ}
    {opts : RetryOptions} {fuel attempt : Nat} {d : Int} {s s1 : σ} {e : DBError}
    (hfn : fn s = (some e, s1)) (hnr : RetryableError (some e) = false) :
    retryAux ctx fn opts (fuel + 1) attempt d s = ⟨1, [], .err e, s1⟩ := by
  simp [retryAux, hfn, hnr]

/-! ## Permutation and membership facts about the query pipeline -/

theorem orderedInsert_perm (le : Produto → Produto → Bool) (a : Produto)
    (l : List Produto) : (orderedInsert le a l).Perm (a :: l) := by
  induction l with
  | nil => simp [orderedInsert]
  | cons b bs ih =>
    simp only [orderedInsert]
    by_cases h : le a b
    · simp [h]
    · rw [if_neg h]
      exact (ih.cons b).trans (List.Perm.swap a b bs)

theorem sortDocs_perm (le : Produto → Produto → Bool) (l : List Produto) :
    (sortDocs le l).Perm l := by
  induction l with
  | nil => simp [sortDocs]
  | cons a as ih =>
    exact (orderedInsert_perm le a (sortDocs le as)).trans (ih.cons a)

theorem mongoLimit_subset (limit : Int) (l : List Produto) :
    mongoLimit limit l ⊆ l := by
  unfold mongoLimit
  split
  · exact fun _ h => h
  · exact List.take_subset _ _

/-- Any record matching a repository-effective filter (the caller filter with
`deleted_at: {$exists:false}` forced in) is live. -/
theorem filterMatches_mapSet_deleted (flt : List (String × BsonCond)) (p : Produto)
    (h : filterMatches (mapSet flt "deleted_at" BsonCond.existsFalse) p = true) :
    p.DeletedAt = none := by
  have hmem : (("deleted_at" : String), BsonCond.existsFalse) ∈
      mapSet flt "deleted_at" BsonCond.existsFalse := by
    simp [mapSet]
  have hc := (List.all_eq_true.mp h) _ hmem
  simpa [condMatches, produtoField, Option.isNone_iff_eq_none, Option.map_eq_none'] using hc

/-- C2: every record returned by the repository's paginated find is live, and
the repository's count counts only live records — the caller-supplied filter
is always conjoined with "deletion timestamp is absent", so soft-deleted
records are neither returned nor counted, whatever the filter and sort. -/
theorem list_path_excludes_soft_deleted
    (faults : Nat → Option DBError) (skip limit : Int)
    (flt : List (String × BsonCond)) (srt : List (String × Int))
    (s s2 : MongoState) (l : List Produto) (n : Int) :
    (repoFindAllPaginated faults skip limit flt srt s = (Except.ok l, s2) →
      ∀ p ∈ l, p.DeletedAt = none) ∧
    (repoCount faults flt s = (Except.ok n, s2) →
      n = ((s.docs.filter
        (fun d => (d.DeletedAt == none) &&
          filterMatches (mapSet flt "deleted_at" BsonCond.existsFalse) d)).length : Int)) := by
  constructor
  · intro h p hp
    unfold repoFindAllPaginated mongoRT at h
    cases hf : faults s.calls with
    | some e => rw [hf] at h; simp at h
    | none =>
      rw [hf] at h
      simp only [Prod.mk.injEq, Except.ok.injEq] at h
      have hl := h.1
      subst hl
      have h1 : p ∈ mongoSkip skip (sortDocs
          (sortLe (if srt.isEmpty then [(("id" : String), (1 : Int))] else srt))
          (s.docs.filter (fun d =>
            filterMatches (mapSet flt "deleted_at" BsonCond.existsFalse) d))) :=
        mongoLimit_subset _ _ hp
      have h2 := List.drop_subset _ _ h1
      have h3 := (sortDocs_perm _ _).mem_iff.mp h2
      have h4 := List.mem_filter.mp h3
      exact filterMatches_mapSet_deleted flt p h4.2
  · intro h
    unfold repoCount mongoRT at h
    cases hf : faults s.calls with
    | some e => rw [hf] at h; simp at h
    | none =>
      rw [hf] at h
      simp only [Prod.mk.injEq, Except.ok.injEq] at h
      have hfeq : s.docs.filter (fun d =>
            filterMatches (mapSet flt "deleted_at" BsonCond.existsFalse) d) =
          s.docs.filter (fun d => (d.DeletedAt == none) &&
            filterMatches (mapSet flt "deleted_at" BsonCond.existsFalse) d) := by
        apply List.filter_congr
        intro d _
        by_cases hm : filterMatches (mapSet flt "deleted_at" BsonCond.existsFalse) d = true
        · have hd := filterMatches_mapSet_deleted flt d hm
          simp [hm, hd]
        · simp only [Bool.not_eq_true] at hm
          simp [hm]
      rw [← h.1, hfeq]

/-- Example records shared by the concrete witnesses below. -/
def exLive : Produto :=
  { ID := 1, Nome := "Notebook", Preco := 3500, Descricao := "a",
    CreatedAt := 5, UpdatedAt := 5, DeletedAt := none }

def exDead : Produto :=
  { ID := 2, Nome := "Mouse", Preco := 50, Descricao := "b",
    CreatedAt := 5, UpdatedAt := 6, DeletedAt := some 7 }

def exNew : Produto :=
  { ID := 0, Nome := "Tablet", Preco := 999, Descricao := "c",
    CreatedAt := 0, UpdatedAt := 0, DeletedAt := none }

/-- C2 witness: on a store holding one live and one soft-deleted record, the
list returns only the live record and the count is 1. -/
theorem list_path_excludes_soft_deleted_witness :
    (∀ p ∈ [exLive], p.DeletedAt = none) ∧
    (1 : Int) = ((([exLive, exDead]).filter
      (fun d => (d.DeletedAt == none) &&
        filterMatches (mapSet [] "deleted_at" BsonCond.existsFalse) d)).length : Int) := by
  constructor
  · exact (list_path_excludes_soft_deleted noFaults 0 0 [] []
      ⟨[exLive, exDead], 0⟩ ⟨[exLive, exDead], 1⟩ [exLive] 1).1 (by decide)
  · exact (list_path_excludes_soft_deleted noFaults 0 0 [] []
      ⟨[exLive, exDead], 0⟩ ⟨[exLive, exDead], 1⟩ [exLive] 1).2 (by decide)

/-! ## C10: Patch mutates the caller's updates map -/

theorem lookup_append_last (k : String) (v : PVal) :
    ∀ (m : List (String × PVal)), (∀ kv ∈ m, kv.1 ≠ k) →
      (m ++ [(k, v)]).lookup k = some v := by
  intro m
  induction m with
  | nil => intro _; simp [List.lookup]
  | cons kv m ih =>
    intro hm
    have hk : kv.1 ≠ k := hm kv (List.mem_cons_self kv m)
    have hbeq : (k == kv.1) = false := beq_eq_false_iff_ne.mpr (Ne.symm hk)
    simp only [List.cons_append, List.lookup, hbeq]
    exact ih (fun kv2 h2 => hm kv2 (List.mem_cons_of_mem kv h2))

theorem lookup_mapSetP (m : List (String × PVal)) (k : String) (v : PVal) :
    (mapSetP m k v).lookup k = some v := by
  unfold mapSetP
  apply lookup_append_last
  intro kv hkv
  have := (List.mem_filter.mp hkv).2
  simpa [bne] using this

theorem repoPatch_updatesAfter (faults : Nat → Option DBError) (now id : Int)
    (updates : List (String × PVal)) (s : MongoState) :
    (repoPatch faults now id updates s).updatesAfter =
      mapSetP updates "updated_at" (.pTime now) := by
  unfold repoPatch mongoRT
  cases faults s.calls with
  | some e => rfl
  | none =>
    cases hfu : (findOneAndUpdate (fun d => filterMatches (liveIdFilter id) d)
        (applySet (mapSetP updates "updated_at" (.pTime now))) s.docs).1 with
    | none => simp [hfu]
    | some updated => simp [hfu]

/-- C10: `Patch` writes `updated_at` into the very updates map the caller
passed (Go maps are references): after every call the caller's map equals
its old contents with an `updated_at ↦ now` entry forced in, so it always
contains an `updated_at` entry afterwards, whatever it contained before. -/
theorem patch_mutates_caller_updates_map (faults : Nat → Option DBError)
    (now id : Int) (updates : List (String × PVal)) (s : MongoState) :
    (repoPatch faults now id updates s).updatesAfter =
      mapSetP updates "updated_at" (.pTime now) ∧
    ((repoPatch faults now id updates s).updatesAfter).lookup "updated_at" =
      some (.pTime now) := by
  refine ⟨repoPatch_updatesAfter faults now id updates s, ?_⟩
  rw [repoPatch_updatesAfter faults now id updates s]
  exact lookup_mapSetP updates "updated_at" (.pTime now)

/-! ## C3: which operations are wrapped in the retry executor -/

def RetryResult.isOk {α : Type} : RetryResult α → Bool
  | .ok _ => true
  | _ => false

/-- A transport that fails the very first store round-trip with a transient
network error and then recovers. -/
def failOnce : Nat → Option DBError :=
  fun n => if n = 0 then some (.network "connection reset") else none

/-- C3 counterexample: on a store whose first round-trip fails transiently
and then recovers, create, replace-by-id and soft-delete-by-id succeed
(their retry wrapper re-runs the closure), but patch-by-id — which the
repository does NOT route through the retry executor — surfaces the
transient error, so not every mutating operation succeeds as the claim
states. -/
theorem patch_not_retried_counterexample :
    (repoCreate failOnce ctxNever 10 exNew ⟨[exLive], 0⟩).result.isOk = true ∧
    (repoUpdate failOnce ctxNever 10 1 exNew ⟨[exLive], 0⟩).result.isOk = true ∧
    (repoDelete failOnce ctxNever 10 1 ⟨[exLive], 0⟩).result.isOk = true ∧
    (repoPatch failOnce 10 1 [("preco", PVal.pNum 42)] ⟨[exLive], 0⟩).result =
      Except.error (DBError.network "connection reset") := by
  refine ⟨?_, ?_, ?_, ?_⟩ <;> decide

/-- C3 amended: create, replace-by-id and soft-delete-by-id run through the
retry executor with the default policy and therefore succeed on a
fail-once-transiently store, but patch-by-id performs exactly one store
round-trip per call — no retry — and returns any first-call transport error
unchanged. -/
theorem patch_not_retried_amended :
    (∀ (faults : Nat → Option DBError) (now id : Int)
      (updates : List (String × PVal)) (s : MongoState),
      (repoPatch faults now id updates s).state.calls = s.calls + 1) ∧
    (∀ (e : DBError) (now id : Int) (updates : List (String × PVal)) (s : MongoState),
      (repoPatch (fun _ => some e) now id updates s).result = Except.error e) ∧
    (repoCreate failOnce ctxNever 10 exNew ⟨[exLive], 0⟩).result.isOk = true ∧
    (repoUpdate failOnce ctxNever 10 1 exNew ⟨[exLive], 0⟩).result.isOk = true ∧
    (repoDelete failOnce ctxNever 10 1 ⟨[exLive], 0⟩).result.isOk = true := by
  refine ⟨?_, ?_, by decide, by decide, by decide⟩
  · intro faults now id updates s
    unfold repoPatch mongoRT
    cases faults s.calls with
    | some e => rfl
    | none =>
      cases hfu : (findOneAndUpdate (fun d => filterMatches (liveIdFilter id) d)
          (applySet (mapSetP updates "updated_at" (.pTime now))) s.docs).1 with
      | none => simp [hfu]
      | some updated => simp [hfu]
  · intro e now id updates s
    unfold repoPatch mongoRT
    rfl

/-! ## C8: replace-by-id preserves CreatedAt and DeletedAt -/

theorem replaceFirst_fst_of_find? (pred : Produto → Bool) (v : Produto) :
    ∀ (docs : List Produto) (x : Produto), docs.find? pred = some x →
      (replaceFirst pred v docs).1 = 1 := by
  intro docs
  induction docs with
  | nil => intro x h; simp at h
  | cons d ds ih =>
    intro x h
    by_cases hp : pred d = true
    · simp [replaceFirst, hp]
    · rw [List.find?_cons_of_neg _ (by simpa using hp)] at h
      simp only [Bool.not_eq_true] at hp
      simp [replaceFirst, hp, ih x h]

/-- The live record found by the `{id, deleted_at absent}` filter has no
deletion timestamp. -/
theorem find_liveIdFilter_deletedAt {id : Int} {docs : List Produto}
    {existing : Produto}
    (h : docs.find? (fun d => filterMatches (liveIdFilter id) d) = some existing) :
    existing.DeletedAt = none := by
  have hm := List.find?_some h
  have hc := (List.all_eq_true.mp hm) ("deleted_at", BsonCond.existsFalse) (by simp [liveIdFilter])
  simpa [condMatches, produtoField, Option.isNone_iff_eq_none, Option.map_eq_none'] using hc

/-- C8: on a healthy transport, replace-by-id on an existing live record
stores the caller-supplied fields under the target identifier with a fresh
modification time, but keeps the existing record's creation timestamp and
deletion marker (which is absent) unchanged, replacing the record in place;
on an absent or soft-deleted target it returns the "not found" error and
leaves the store unchanged. -/
theorem update_preserves_created_and_deleted (now id : Int) (produto : Produto)
    (docs : List Produto) :
    (∀ existing, docs.find? (fun d => filterMatches (liveIdFilter id) d) = some existing →
      repoUpdate noFaults ctxNever now id produto ⟨docs, 0⟩ =
        ⟨1, [],
          .ok { produto with
                ID := id, UpdatedAt := now,
                CreatedAt := existing.CreatedAt, DeletedAt := existing.DeletedAt },
          ⟨(replaceFirst (fun d => filterMatches (liveIdFilter id) d)
              { produto with
                ID := id, UpdatedAt := now,
                CreatedAt := existing.CreatedAt, DeletedAt := existing.DeletedAt }
              docs).2, 2⟩⟩ ∧
        existing.DeletedAt = none) ∧
    (docs.find? (fun d => filterMatches (liveIdFilter id) d) = none →
      repoUpdate noFaults ctxNever now id produto ⟨docs, 0⟩ =
        ⟨1, [], .err (.errString "not found"), ⟨docs, 1⟩⟩) := by
  constructor
  · intro existing h
    refine ⟨?_, find_liveIdFilter_deletedAt h⟩
    have hfn : updateAttempt noFaults now id produto ⟨docs, 0⟩ =
        (.ok { produto with
              ID := id, UpdatedAt := now,
              CreatedAt := existing.CreatedAt, DeletedAt := existing.DeletedAt },
          (⟨(replaceFirst (fun d => filterMatches (liveIdFilter id) d)
              { produto with
                ID := id, UpdatedAt := now,
                CreatedAt := existing.CreatedAt, DeletedAt := existing.DeletedAt }
              docs).2, 2⟩ : MongoState)) := by
      have hn := replaceFirst_fst_of_find?
        (fun d => filterMatches (liveIdFilter id) d)
        { produto with
          ID := id, UpdatedAt := now,
          CreatedAt := existing.CreatedAt, DeletedAt := existing.DeletedAt }
        docs existing h
      simp [updateAttempt, mongoRT, noFaults, h, Produto.BeforeUpdate, hn]
    unfold repoUpdate RetryWithResult
    rw [show DefaultRetryOptions.MaxAttempts.toNat = 2 + 1 from rfl]
    exact retryWRAux_ok hfn
  · intro h
    have hfn : updateAttempt noFaults now id produto ⟨docs, 0⟩ =
        (.error (.errString "not found"), (⟨docs, 1⟩ : MongoState)) := by
      simp [updateAttempt, mongoRT, noFaults, h]
    unfold repoUpdate RetryWithResult
    rw [show DefaultRetryOptions.MaxAttempts.toNat = 2 + 1 from rfl]
    exact retryWRAux_fatal hfn rfl

/-- C8 witness: replacing record 1 on a store `[exLive]` succeeds and keeps
`CreatedAt = 5` and no deletion mark; replacing absent id 3 fails with "not
found" and leaves the store unchanged. -/
theorem update_preserves_created_and_deleted_witness :
    (repoUpdate noFaults ctxNever 20 1 exNew ⟨[exLive], 0⟩ =
      ⟨1, [],
        .ok { exNew with
              ID := 1, UpdatedAt := 20,
              CreatedAt := exLive.CreatedAt, DeletedAt := exLive.DeletedAt },
        ⟨(replaceFirst (fun d => filterMatches (liveIdFilter 1) d)
            { exNew with
              ID := 1, UpdatedAt := 20,
              CreatedAt := exLive.CreatedAt, DeletedAt := exLive.DeletedAt }
            [exLive]).2, 2⟩⟩ ∧
      exLive.DeletedAt = none) ∧
    repoUpdate noFaults ctxNever 20 3 exNew ⟨[exLive], 0⟩ =
      ⟨1, [], .err (.errString "not found"), ⟨[exLive], 1⟩⟩ := by
  constructor
  · exact (update_preserves_created_and_deleted 20 1 exNew [exLive]).1 exLive (by decide)
  · exact (update_preserves_created_and_deleted 20 3 exNew [exLive]).2 (by decide)

/-! ## DTOs (internal/dto): pagination, filter, sort -/

/-- `dto.PaginationRequest`. -/
structure PaginationRequest where
  Page : Int
  PageSize : Int
deriving Repr, DecidableEq

/-- `PaginationRequest.Validate`: clamps out-of-range values to defaults
(page < 1 → 1; pageSize < 1 → 10; pageSize > 100 → 100). It returns nothing
in Go — it never produces an error. -/
def PaginationRequest.Validate (p : PaginationRequest) : PaginationRequest :=
  let p1 := if p.Page < 1 then { p with Page := 1 } else p
  let p2 := if p1.PageSize < 1 then { p1 with PageSize := 10 } else p1
  if p2.PageSize > 100 then { p2 with PageSize := 100 } else p2

def PaginationRequest.GetSkip (p : PaginationRequest) : Int :=
  (p.Page - 1) * p.PageSize

def PaginationRequest.GetLimit (p : PaginationRequest) : Int :=
  p.PageSize

/-- `dto.PaginationResponse`. -/
structure PaginationResponse where
  Page : Int
  PageSize : Int
  TotalPages : Int
  TotalItems : Int
  HasNext : Bool
  HasPrev : Bool
deriving Repr, DecidableEq

/-- `dto.NewPaginationResponse`.  Go's `int` division truncates toward zero
(`Int.tdiv`); the operands are non-negative at every call site. -/
def NewPaginationResponse (page pageSize totalItems : Int) : PaginationResponse :=
  let totalPages0 := Int.tdiv (totalItems + pageSize - 1) pageSize
  let totalPages := if totalPages0 = 0 then 1 else totalPages0
  { Page := page
    PageSize := pageSize
    TotalPages := totalPages
    TotalItems := totalItems
    HasNext := decide (page < totalPages)
    HasPrev := decide (page > 1) }

/-- `dto.FilterRequest` (nil pointers = absent fields). -/
structure FilterRequest where
  Nome : Option String
  PrecoMin : Option Rat
  PrecoMax : Option Rat
  Descricao : Option String
deriving Repr, DecidableEq

/-- `FilterRequest.ToMongoFilter`: nome/descricao become case-insensitive
regex conditions when present and non-empty; price bounds become one range
condition when either is present. -/
def FilterRequest.ToMongoFilter (f : FilterRequest) : List (String × BsonCond) :=
  (match f.Nome with
   | some n => if n == "" then [] else [(("nome" : String), BsonCond.regexI n)]
   | none => []) ++
  (match f.Descricao with
   | some dsc => if dsc == "" then [] else [(("descricao" : String), BsonCond.regexI dsc)]
   | none => []) ++
  (if f.PrecoMin.isSome || f.PrecoMax.isSome
   then [(("preco" : String), BsonCond.range f.PrecoMin f.PrecoMax)]
   else [])

/-- `dto.SortRequest`. -/
structure SortRequest where
  Field : String
  Order : String
deriving Repr, DecidableEq

def allowedSortFields : List String :=
  ["id", "nome", "preco", "descricao", "created_at", "updated_at"]

/-- `SortRequest.Validate`: empty field is fine (no sort); a field outside
the allow-list is an error; otherwise the order is lower-cased and defaulted
to "asc". -/
def SortRequest.Validate (s : SortRequest) : Except String SortRequest :=
  if s.Field == "" then .ok s
  else if !(allowedSortFields.contains s.Field) then
    .error ("campo de ordenacao invalido: " ++ s.Field ++
      ". Campos permitidos: id, nome, preco, descricao, created_at, updated_at")
  else
    let ord := s.Order.toLower
    let ord1 := if ord != "asc" && ord != "desc" then "asc" else ord
    .ok { s with Order := ord1 }

/-- `SortRequest.ToMongoSort`. -/
def SortRequest.ToMongoSort (s : SortRequest) : List (String × Int) :=
  if s.Field == "" then [(("id" : String), (1 : Int))]
  else [(s.Field, if s.Order == "desc" then (-1 : Int) else 1)]

/-! ## Cache layer (internal/cache, part_004 and part_005) -/

/-- Decoded content of a cached byte string: a single record, a list-result
envelope, or bytes that do not decode. -/
inductive CacheVal where
  | produto (p : Produto)
  | listResult (produtos : List Produto) (total : Int)
  | garbage (s : String)
deriving Repr, DecidableEq

/-- `cache.DecodeProduto` (json round-trip: only produto-shaped bytes
decode). -/
def DecodeProduto : CacheVal → Except Unit Produto
  | .produto p => .ok p
  | _ => .error ()

/-- Decoding of the anonymous `{Produtos, Total}` struct cached by the list
path. -/
def DecodeProdutosList : CacheVal → Except Unit (List Produto × Int)
  | .listResult ps t => .ok (ps, t)
  | _ => .error ()

/-- A cache backend as the service observes it: whether one is configured,
what `Get` yields per key (an error models both miss and lookup failure —
the Go code treats them alike), and whether `Set`/`Delete` succeed per
key. -/
structure CacheModel where
  present : Bool
  getRes : String → Except Unit CacheVal
  setOk : String → Bool
  delOk : String → Bool

/-- `KeyGenerator.Generate` with the "produto" key namespace
(`ProdutoKeyGenerator`): joins non-empty parts with ":". -/
def keyGenerate (pre : String) (parts : List String) : String :=
  parts.foldl (fun key part => if part != "" then key ++ ":" ++ part else key) pre

/-- `cache.GenerateProdutoKey`. -/
def GenerateProdutoKey (id : Int) : String :=
  keyGenerate "produto" ["id", toString id]

/-- `cache.GenerateProdutosListKey`.  The Go code ranges over the filter map
(`for k, v := range filters`), whose iteration order is unspecified; the
embedding therefore takes the entries in the order the iteration presents
them, with values already rendered by `fmt.Sprintf("%v", v)`. -/
def GenerateProdutosListKey (page pageSize : Int)
    (filters : List (String × String)) : String :=
  let key := keyGenerate "produto" ["list"]
  let key1 := if page > 0 then key ++ ":page:" ++ toString page else key
  let key2 := if pageSize > 0 then key1 ++ ":size:" ++ toString pageSize else key1
  filters.foldl (fun k kv => k ++ ":" ++ kv.1 ++ ":" ++ kv.2) key2

/-- Deterministic stand-in for Go's `%v` rendering of a rational bound. -/
def renderRat (q : Rat) : String :=
  if q.den = 1 then toString q.num else toString q

/-- `fmt.Sprintf("%v", v)` of the condition objects (fmt prints Go maps with
sorted keys, so the rendering of one value is deterministic). -/
def bsonCondRender : BsonCond → String
  | .eqInt n => toString n
  | .regexI pat => "map[$options:i $regex:" ++ pat ++ "]"
  | .range gte lte =>
    "map[" ++
      (match gte with
       | some lo => "$gte:" ++ renderRat lo ++ (if lte.isSome then " " else "")
       | none => "") ++
      (match lte with
       | some hi => "$lte:" ++ renderRat hi
       | none => "") ++ "]"
  | .existsFalse => "map[$exists:false]"

/-! ## Orchestration service (internal/service/produto_service.go) -/

/-- The `internal/errors` taxonomy at the granularity the service emits it. -/
inductive ApiErr where
  | invalidID
  | produtoNotFound
  | nomeObrigatorio
  | precoInvalido
  | invalidInput (details : String)
  | database (details : String)
deriving Repr, DecidableEq

/-- The `error.Error()` text of the wrapper the retry executor returns on
exhaustion (`fmt.Errorf("max retry attempts (%d) reached: %w", ...)`). -/
def retryErrMessage (m : Int) (last : Option DBError) : String :=
  "max retry attempts (" ++ toString m ++ ") reached: " ++
    (match last with
     | some e => e.message
     | none => "missing")

/-- What one service call yields: the caller-visible result, the store
state, and how many cache failures were recorded to metrics
(`RecordCacheError`) along the way. -/
structure SvcOut (α : Type) where
  result : Except ApiErr α
  state : MongoState
  cacheErrs : Nat
deriving Repr, DecidableEq

/-- Store path of `produtoService.FindByID` (cache miss or no cache):
repository access, "not found" mapping, then best-effort cache population
whose failure is only counted, never propagated. -/
def svcFindFromRepo (c : CacheModel) (faults : Nat → Option DBError)
    (id : Int) (s : MongoState) (ce : Nat) : SvcOut Produto :=
  match repoFindByID faults id s with
  | (.error e, s1) =>
    if e.message == "not found" then ⟨.error .produtoNotFound, s1, ce⟩
    else ⟨.error (.database e.message), s1, ce⟩
  | (.ok p, s1) =>
    if c.present then
      if c.setOk (GenerateProdutoKey id) then ⟨.ok p, s1, ce⟩
      else ⟨.ok p, s1, ce + 1⟩
    else ⟨.ok p, s1, ce⟩

/-- `produtoService.FindByID`: id validation, cache-aside read, store
fallback.  A cache `Get` error counts as a miss; a decode failure counts as
a cache error; both fall through to the store. -/
def serviceFindByID (c : CacheModel) (faults : Nat → Option DBError)
    (id : Int) (s : MongoState) : SvcOut Produto :=
  if id ≤ 0 then ⟨.error .invalidID, s, 0⟩
  else if c.present then
    match c.getRes (GenerateProdutoKey id) with
    | .ok v =>
      match DecodeProduto v with
      | .ok p => ⟨.ok p, s, 0⟩
      | .error _ => svcFindFromRepo c faults id s 1
    | .error _ => svcFindFromRepo c faults id s 0
  else svcFindFromRepo c faults id s 0

/-- Mapping of a repository error in the mutating paths: "not found" becomes
the domain not-found error, anything else is wrapped as a database error. -/
def mapRepoErr {α : Type} (st : MongoState) : RetryResult α → SvcOut α
  | .ok a => ⟨.ok a, st, 0⟩
  | .err e =>
    if e.message == "not found" then ⟨.error .produtoNotFound, st, 0⟩
    else ⟨.error (.database e.message), st, 0⟩
  | .exhausted m last => ⟨.error (.database (retryErrMessage m last)), st, 0⟩
  | .canceled => ⟨.error (.database "context canceled"), st, 0⟩

/-- Best-effort invalidation of the single-record key after a successful
write: a failure is only counted, the result is returned regardless. -/
def invalidateSingle {α : Type} (c : CacheModel) (id : Int) (out : SvcOut α) :
    SvcOut α :=
  if c.present then
    if c.delOk (GenerateProdutoKey id) then out
    else { out with cacheErrs := out.cacheErrs + 1 }
  else out

/-- `produtoService.Update`: validation, retried replace, "not found"
mapping, best-effort single-record cache invalidation. -/
def serviceUpdate (c : CacheModel) (faults : Nat → Option DBError)
    (ctx : Nat → Bool) (now id : Int) (produto : Produto) (s : MongoState) :
    SvcOut Produto :=
  if id ≤ 0 then ⟨.error .invalidID, s, 0⟩
  else if produto.Nome == "" then ⟨.error .nomeObrigatorio, s, 0⟩
  else if produto.Preco ≤ 0 then ⟨.error .precoInvalido, s, 0⟩
  else
    let t := repoUpdate faults ctx now id produto s
    match t.result with
    | .ok result => invalidateSingle c id ⟨.ok result, t.state, 0⟩
    | r => mapRepoErr t.state r

/-- `produtoService.Patch`: id and field validations (a type assertion that
fails skips the check, as in Go), un-retried repository patch, "not found"
mapping, best-effort cache invalidation. -/
def servicePatch (c : CacheModel) (faults : Nat → Option DBError)
    (now id : Int) (updates : List (String × PVal)) (s : MongoState) :
    SvcOut Produto :=
  if id ≤ 0 then ⟨.error .invalidID, s, 0⟩
  else if (match updates.lookup "nome" with
           | some (.pStr n) => n == ""
           | _ => false) then ⟨.error .nomeObrigatorio, s, 0⟩
  else if (match updates.lookup "preco" with
           | some (.pNum q) => decide (q ≤ 0)
           | _ => false) then ⟨.error .precoInvalido, s, 0⟩
  else
    let t := repoPatch faults now id updates s
    match t.result with
    | .ok result => invalidateSingle c id ⟨.ok result, t.state, 0⟩
    | .error e =>
      if e.message == "not found" then ⟨.error .produtoNotFound, t.state, 0⟩
      else ⟨.error (.database e.message), t.state, 0⟩

/-- `produtoService.Delete`: id validation, retried soft delete, "not found"
mapping, best-effort cache invalidation. -/
def serviceDelete (c : CacheModel) (faults : Nat → Option DBError)
    (ctx : Nat → Bool) (now id : Int) (s : MongoState) : SvcOut Unit :=
  if id ≤ 0 then ⟨.error .invalidID, s, 0⟩
  else
    let t := repoDelete faults ctx now id s
    match t.result with
    | .ok _ => invalidateSingle c id ⟨.ok (), t.state, 0⟩
    | r => mapRepoErr t.state r

/-- Store path of the list operation: count, paginated find, best-effort
cache population, pagination metadata. -/
def svcListFromRepo (c : CacheModel) (faults : Nat → Option DBError)
    (pg : PaginationRequest) (mongoFilter : List (String × BsonCond))
    (mongoSort : List (String × Int)) (cacheKey : String) (s : MongoState)
    (ce : Nat) : SvcOut (List Produto × PaginationResponse) :=
  match repoCount faults mongoFilter s with
  | (.error e, s1) => ⟨.error (.database e.message), s1, ce⟩
  | (.ok totalItems, s1) =>
    match repoFindAllPaginated faults pg.GetSkip pg.GetLimit mongoFilter mongoSort s1 with
    | (.error e, s2) => ⟨.error (.database e.message), s2, ce⟩
    | (.ok produtos, s2) =>
      let ce2 := if c.present then (if c.setOk cacheKey then ce else ce + 1) else ce
      ⟨.ok (produtos, NewPaginationResponse pg.Page pg.PageSize totalItems), s2, ce2⟩

/-- `produtoService.FindAllPaginated`: clamp pagination, validate sort (the
only validation error of this path), build the mongo filter/sort, compute
the list cache key (passing the filter entries in iteration order), then
cache-aside around count + paginated find. -/
def serviceFindAllPaginated (c : CacheModel) (faults : Nat → Option DBError)
    (pagination : PaginationRequest) (flt : FilterRequest) (srt : SortRequest)
    (s : MongoState) : SvcOut (List Produto × PaginationResponse) :=
  let pg := pagination.Validate
  match srt.Validate with
  | .error msg => ⟨.error (.invalidInput msg), s, 0⟩
  | .ok srt1 =>
    let mongoFilter := flt.ToMongoFilter
    let mongoSort := srt1.ToMongoSort
    let cacheKey := GenerateProdutosListKey pg.Page pg.PageSize
      (mongoFilter.map (fun kv => (kv.1, bsonCondRender kv.2)))
    if c.present then
      match c.getRes cacheKey with
      | .ok v =>
        match DecodeProdutosList v with
        | .ok pr =>
          ⟨.ok (pr.1, NewPaginationResponse pg.Page pg.PageSize pr.2), s, 0⟩
        | .error _ => svcListFromRepo c faults pg mongoFilter mongoSort cacheKey s 1
      | .error _ => svcListFromRepo c faults pg mongoFilter mongoSort cacheKey s 0
    else svcListFromRepo c faults pg mongoFilter mongoSort cacheKey s 0

/-! ## C7: pagination metadata -/

/-- C7: for page ≥ 1, pageSize ≥ 1, totalItems ≥ 0, the metadata builder
computes totalPages = ceil(totalItems / pageSize) with a minimum of 1,
hasNext = (page < totalPages) and hasPrev = (page > 1); in particular
totalItems=25, pageSize=10, page=3 gives totalPages=3, hasNext=false,
hasPrev=true. -/
theorem pagination_metadata_correct (page pageSize totalItems : Int)
    (hp : 1 ≤ page) (hs : 1 ≤ pageSize) (ht : 0 ≤ totalItems) :
    (NewPaginationResponse page pageSize totalItems).TotalPages =
      max 1 ⌈(totalItems : Rat) / (pageSize : Rat)⌉ ∧
    (NewPaginationResponse page pageSize totalItems).HasNext =
      decide (page < (NewPaginationResponse page pageSize totalItems).TotalPages) ∧
    (NewPaginationResponse page pageSize totalItems).HasPrev = decide (1 < page) ∧
    NewPaginationResponse 3 10 25 =
      { Page := 3, PageSize := 10, TotalPages := 3, TotalItems := 25,
        HasNext := false, HasPrev := true } := by
  have hb : (0 : Int) < pageSize := by omega
  have htd : Int.tdiv (totalItems + pageSize - 1) pageSize =
      (totalItems + pageSize - 1) / pageSize :=
    Int.tdiv_eq_ediv (by omega) (by omega)
  have hmod := Int.ediv_add_emod (totalItems + pageSize - 1) pageSize
  have hr0 : 0 ≤ (totalItems + pageSize - 1) % pageSize :=
    Int.emod_nonneg _ (by omega)
  have hrlt : (totalItems + pageSize - 1) % pageSize < pageSize :=
    Int.emod_lt_of_pos _ hb
  have h1 : totalItems ≤ pageSize * ((totalItems + pageSize - 1) / pageSize) := by
    linarith
  have h2 : pageSize * ((totalItems + pageSize - 1) / pageSize - 1) < totalItems := by
    have he : pageSize * ((totalItems + pageSize - 1) / pageSize - 1) =
        pageSize * ((totalItems + pageSize - 1) / pageSize) - pageSize := by ring
    linarith
  have h1m : totalItems ≤ ((totalItems + pageSize - 1) / pageSize) * pageSize := by
    rw [mul_comm] at h1; exact h1
  have h2m : ((totalItems + pageSize - 1) / pageSize - 1) * pageSize < totalItems := by
    rw [mul_comm] at h2; exact h2
  have hq0 : 0 ≤ (totalItems + pageSize - 1) / pageSize :=
    Int.ediv_nonneg (by omega) (by omega)
  have hbq : (0 : Rat) < (pageSize : Rat) := by exact_mod_cast hb
  have hceil : ⌈(totalItems : Rat) / (pageSize : Rat)⌉ =
      (totalItems + pageSize - 1) / pageSize := by
    rw [Int.ceil_eq_iff]
    constructor
    · rw [lt_div_iff hbq]
      exact_mod_cast h2m
    · rw [div_le_iff hbq]
      exact_mod_cast h1m
  refine ⟨?_, rfl, rfl, by decide⟩
  show (if Int.tdiv (totalItems + pageSize - 1) pageSize = 0 then 1
        else Int.tdiv (totalItems + pageSize - 1) pageSize) =
    max 1 ⌈(totalItems : Rat) / (pageSize : Rat)⌉
  rw [hceil, htd]
  by_cases hq : (totalItems + pageSize - 1) / pageSize = 0
  · rw [if_pos hq, hq]
    rw [max_eq_left]
    omega
  · rw [if_neg hq]
    rw [max_eq_right]
    omega

/-- C7 witness: the theorem instantiated at totalItems=25, pageSize=10,
page=3. -/
theorem pagination_metadata_correct_witness :
    (NewPaginationResponse 3 10 25).TotalPages =
      max 1 ⌈(25 : Rat) / (10 : Rat)⌉ ∧
    (NewPaginationResponse 3 10 25).HasNext =
      decide ((3 : Int) < (NewPaginationResponse 3 10 25).TotalPages) ∧
    (NewPaginationResponse 3 10 25).HasPrev = decide ((1 : Int) < 3) ∧
    NewPaginationResponse 3 10 25 =
      { Page := 3, PageSize := 10, TotalPages := 3, TotalItems := 25,
        HasNext := false, HasPrev := true } :=
  pagination_metadata_correct 3 10 25 (by decide) (by decide) (by decide)

/-! ## C4: out-of-range pagination is clamped, not rejected -/

/-- A service configured without a cache backend (`s.cache == nil`). -/
def noCache : CacheModel :=
  { present := false, getRes := fun _ => .error (), setOk := fun _ => false,
    delOk := fun _ => false }

/-- A configured cache whose every operation fails. -/
def failCache : CacheModel :=
  { present := true, getRes := fun _ => .error (), setOk := fun _ => false,
    delOk := fun _ => false }

/-- The empty filter request (all pointers nil). -/
def emptyFilterReq : FilterRequest :=
  { Nome := none, PrecoMin := none, PrecoMax := none, Descricao := none }

/-- The empty sort request (no sort field). -/
def noSort : SortRequest := { Field := "", Order := "" }

/-- C4 counterexample: with page=0 and pageSize=0 (both out of range) the
list operation does NOT return a ValidationError — it clamps to page 1 /
size 10 and succeeds; likewise pageSize=200 is clamped to 100 and the call
succeeds. -/
theorem pagination_not_rejected_counterexample :
    (serviceFindAllPaginated noCache noFaults ⟨0, 0⟩ emptyFilterReq noSort
        ⟨[exLive], 0⟩).result =
      Except.ok ([exLive], NewPaginationResponse 1 10 1) ∧
    (serviceFindAllPaginated noCache noFaults ⟨1, 200⟩ emptyFilterReq noSort
        ⟨[exLive], 0⟩).result =
      Except.ok ([exLive], NewPaginationResponse 1 100 1) := by
  constructor <;> decide

/-- C4 amended: the list path never turns pagination values into a
ValidationError: `PaginationRequest.Validate` clamps them (page < 1 → 1,
pageSize < 1 → 10, pageSize > 100 → 100) and the query proceeds with the
clamped values against a healthy store, returning the filtered page and
metadata built from the clamped values (only an invalid sort field yields a
validation error on this path). -/
theorem pagination_clamped_amended (pagination : PaginationRequest)
    (flt : FilterRequest) (docs : List Produto) :
    serviceFindAllPaginated noCache noFaults pagination flt noSort ⟨docs, 0⟩ =
      ⟨Except.ok
        (mongoLimit pagination.Validate.GetLimit
          (mongoSkip pagination.Validate.GetSkip
            (sortDocs (sortLe [(("id" : String), (1 : Int))])
              (docs.filter (fun d =>
                filterMatches (mapSet flt.ToMongoFilter "deleted_at"
                  BsonCond.existsFalse) d)))),
         NewPaginationResponse pagination.Validate.Page pagination.Validate.PageSize
           ((docs.filter (fun d =>
             filterMatches (mapSet flt.ToMongoFilter "deleted_at"
               BsonCond.existsFalse) d)).length : Int)),
       ⟨docs, 2⟩, 0⟩ ∧
    1 ≤ pagination.Validate.Page ∧ 1 ≤ pagination.Validate.PageSize ∧
    pagination.Validate.PageSize ≤ 100 ∧
    (pagination.Page < 1 → pagination.Validate.Page = 1) ∧
    (pagination.PageSize < 1 → pagination.Validate.PageSize = 10) ∧
    (100 < pagination.PageSize → pagination.Validate.PageSize = 100) := by
  have hv : pagination.Validate =
      ⟨if pagination.Page < 1 then 1 else pagination.Page,
        if pagination.PageSize < 1 then 10
        else if pagination.PageSize > 100 then 100 else pagination.PageSize⟩ := by
    rcases pagination with ⟨pg, ps⟩
    unfold PaginationRequest.Validate
    have c1 : ¬ ((10 : Int) > 100) := by norm_num
    by_cases h1 : pg < 1 <;> by_cases h2 : ps < 1 <;> by_cases h3 : ps > 100 <;>
      simp [h1, h2, h3, c1]
  refine ⟨?_, ?_, ?_, ?_, ?_, ?_, ?_⟩
  · show svcListFromRepo noCache noFaults pagination.Validate flt.ToMongoFilter
        [(("id" : String), (1 : Int))] _ ⟨docs, 0⟩ 0 = _
    unfold svcListFromRepo repoCount repoFindAllPaginated mongoRT noFaults
    simp [PaginationRequest.GetSkip, PaginationRequest.GetLimit, noCache]
  · rw [hv]; dsimp only; split_ifs <;> omega
  · rw [hv]; dsimp only; split_ifs <;> omega
  · rw [hv]; dsimp only; split_ifs <;> omega
  · intro h; rw [hv]; dsimp only; rw [if_pos h]
  · intro h; rw [hv]; dsimp only; rw [if_pos h]
  · intro h; rw [hv]; dsimp only
    rw [if_neg (by omega), if_pos (by omega)]

/-- C4 amended witness: concrete clamping of page=0, pageSize=0 and
pageSize=200. -/
theorem pagination_clamped_amended_witness :
    ((⟨0, 0⟩ : PaginationRequest).Validate.Page = 1 ∧
      (⟨0, 0⟩ : PaginationRequest).Validate.PageSize = 10 ∧
      (⟨1, 200⟩ : PaginationRequest).Validate.PageSize = 100) := by
  have h1 := pagination_clamped_amended ⟨0, 0⟩ emptyFilterReq []
  have h2 := pagination_clamped_amended ⟨1, 200⟩ emptyFilterReq []
  exact ⟨h1.2.2.2.2.1 (by decide), h1.2.2.2.2.2.1 (by decide),
    h2.2.2.2.2.2.2 (by decide)⟩

/-! ## C5: the list cache key is not order-independent in the filter map -/

/-- Rendered filter entries for a two-condition filter (name substring and
price range), in one iteration order. -/
def exFilterA : List (String × String) :=
  [("nome", "map[$options:i $regex:note]"), ("preco", "map[$gte:10 $lte:50]")]

/-- The same map presented in the other iteration order. -/
def exFilterB : List (String × String) :=
  [("preco", "map[$gte:10 $lte:50]"), ("nome", "map[$options:i $regex:note]")]

/-- C5 counterexample: `exFilterA` and `exFilterB` are the same map (a
permutation with distinct keys), yet the generated list cache keys differ —
the generator folds over the Go map in iteration order, which is
unspecified, so with two active conditions the key is not a function of the
map. -/
theorem listkey_not_deterministic_counterexample :
    exFilterA.Perm exFilterB ∧
    (exFilterA.map Prod.fst).Nodup ∧
    GenerateProdutosListKey 1 10 exFilterA ≠ GenerateProdutosListKey 1 10 exFilterB := by
  refine ⟨by decide, by decide, by decide⟩

/-- C5 amended: the key is a deterministic function of page, page size and
the sequence of filter entries in iteration order; in particular, for
filters with at most one active condition, any two presentations of the
same filter map give identical keys.  (With two or more active conditions
the iteration order is unspecified and keys can differ.) -/
theorem listkey_deterministic_amended (page pageSize : Int)
    (l1 l2 : List (String × String)) (hperm : l1.Perm l2) (hlen : l1.length ≤ 1) :
    GenerateProdutosListKey page pageSize l1 = GenerateProdutosListKey page pageSize l2 := by
  have heq : l1 = l2 := by
    cases l1 with
    | nil => exact hperm.nil_eq
    | cons a t =>
      cases t with
      | nil => exact List.singleton_perm.mp hperm
      | cons b t2 => simp at hlen
  rw [heq]

/-- C5 amended witness: a one-condition filter map presented twice. -/
theorem listkey_deterministic_amended_witness :
    GenerateProdutosListKey 1 10 [("nome", "map[$options:i $regex:tv]")] =
      GenerateProdutosListKey 1 10 [("nome", "map[$options:i $regex:tv]")] :=
  listkey_deterministic_amended 1 10 _ _ (by decide) (by decide)

/-! ## C6: cache failures never cause caller-visible failures -/

def Except.okB {ε α : Type} : Except ε α → Bool
  | .ok _ => true
  | .error _ => false

theorem svcFindFromRepo_ok {c : CacheModel} {faults : Nat → Option DBError}
    {id : Int} {s s1 : MongoState} {ce : Nat} {v : Produto}
    (h : repoFindByID faults id s = (.ok v, s1)) :
    (svcFindFromRepo c faults id s ce).result = .ok v := by
  unfold svcFindFromRepo
  rw [h]
  by_cases hp : c.present
  · by_cases hs : c.setOk (GenerateProdutoKey id) <;> simp [hp, hs]
  · simp [hp]

theorem invalidateSingle_result {α : Type} (c : CacheModel) (id : Int)
    (out : SvcOut α) : (invalidateSingle c id out).result = out.result := by
  unfold invalidateSingle
  by_cases hp : c.present
  · by_cases hd : c.delOk (GenerateProdutoKey id) <;> simp [hp, hd]
  · simp [hp]

theorem svcListFromRepo_ok {c : CacheModel} {faults : Nat → Option DBError}
    {pg : PaginationRequest} {mf : List (String × BsonCond)}
    {ms : List (String × Int)} {key : String} {s s1 s2 : MongoState} {ce : Nat}
    {total : Int} {l : List Produto}
    (hc : repoCount faults mf s = (.ok total, s1))
    (hf : repoFindAllPaginated faults pg.GetSkip pg.GetLimit mf ms s1 = (.ok l, s2)) :
    (svcListFromRepo c faults pg mf ms key s ce).result =
      .ok (l, NewPaginationResponse pg.Page pg.PageSize total) := by
  unfold svcListFromRepo
  simp only [hc]
  simp only [hf]

/-- C6: if the store-gateway access of an operation succeeds (and its input
validations pass), the operation returns success to the caller for EVERY
cache behaviour — any combination of failing cache lookups, undecodable
cached bytes, failing cache population and failing cache invalidation: on
the read paths (find-by-id, list) and the write paths (update, patch,
delete). -/
theorem cache_failures_never_escalate
    (c : CacheModel) (faults : Nat → Option DBError) (ctx : Nat → Bool)
    (now id : Int) (produto : Produto) (updates : List (String × PVal))
    (pagination : PaginationRequest) (flt : FilterRequest) (srt : SortRequest)
    (s : MongoState) :
    (∀ v s1, 0 < id → repoFindByID faults id s = (.ok v, s1) →
      ((serviceFindByID c faults id s).result).okB = true) ∧
    (∀ v, 0 < id → produto.Nome ≠ "" → 0 < produto.Preco →
      (repoUpdate faults ctx now id produto s).result = .ok v →
      ((serviceUpdate c faults ctx now id produto s).result).okB = true) ∧
    (∀ v, 0 < id →
      updates.lookup "nome" ≠ some (.pStr "") →
      (∀ q, updates.lookup "preco" = some (.pNum q) → 0 < q) →
      (repoPatch faults now id updates s).result = .ok v →
      ((servicePatch c faults now id updates s).result).okB = true) ∧
    (0 < id → (repoDelete faults ctx now id s).result = .ok () →
      ((serviceDelete c faults ctx now id s).result).okB = true) ∧
    (∀ srt1 total l s1 s2, srt.Validate = .ok srt1 →
      repoCount faults flt.ToMongoFilter s = (.ok total, s1) →
      repoFindAllPaginated faults pagination.Validate.GetSkip
        pagination.Validate.GetLimit flt.ToMongoFilter srt1.ToMongoSort s1 =
        (.ok l, s2) →
      ((serviceFindAllPaginated c faults pagination flt srt s).result).okB = true) := by
  refine ⟨?_, ?_, ?_, ?_, ?_⟩
  · intro v s1 hid hrepo
    unfold serviceFindByID
    rw [if_neg (by omega)]
    by_cases hp : c.present
    · rw [if_pos hp]
      cases hg : c.getRes (GenerateProdutoKey id) with
      | ok cv =>
        cases hd : DecodeProduto cv with
        | ok p => simp [hg, hd, Except.okB]
        | error u =>
          simp [hg, hd, svcFindFromRepo_ok hrepo, Except.okB]
      | error u =>
        simp [hg, svcFindFromRepo_ok hrepo, Except.okB]
    · rw [if_neg hp]
      simp [svcFindFromRepo_ok hrepo, Except.okB]
  · intro v hid hn hpr hrepo
    unfold serviceUpdate
    rw [if_neg (by omega), if_neg (by simpa using hn),
      if_neg (by simp [not_le, hpr])]
    simp only [hrepo, invalidateSingle_result]
    rfl
  · intro v hid hn hq hrepo
    have hnb : (match updates.lookup "nome" with
        | some (.pStr n) => n == ""
        | _ => false) = false := by
      cases hlk : updates.lookup "nome" with
      | none => rfl
      | some pv =>
        cases pv with
        | pStr n =>
          have hne : n ≠ "" := fun he => hn (by rw [hlk, he])
          simpa using hne
        | pNum q => rfl
        | pInt m => rfl
        | pTime t => rfl
    have hpb : (match updates.lookup "preco" with
        | some (.pNum q) => decide (q ≤ 0)
        | _ => false) = false := by
      cases hlk : updates.lookup "preco" with
      | none => rfl
      | some pv =>
        cases pv with
        | pStr n => rfl
        | pNum q => exact decide_eq_false (not_le.mpr (hq q hlk))
        | pInt m => rfl
        | pTime t => rfl
    unfold servicePatch
    rw [if_neg (by omega), if_neg (by simp [hnb]), if_neg (by simp [hpb])]
    simp only [hrepo, invalidateSingle_result]
    rfl
  · intro hid hrepo
    unfold serviceDelete
    rw [if_neg (by omega)]
    simp only [hrepo, invalidateSingle_result]
    rfl
  · intro srt1 total l s1 s2 hv hc hf
    unfold serviceFindAllPaginated
    simp only [hv]
    by_cases hp : c.present
    · simp only [hp, if_true, ite_true]
      cases hg : c.getRes (GenerateProdutosListKey pagination.Validate.Page
          pagination.Validate.PageSize
          (flt.ToMongoFilter.map (fun kv => (kv.1, bsonCondRender kv.2)))) with
      | ok cv =>
        cases hd : DecodeProdutosList cv with
        | ok pr => simp [hg, hd, Except.okB]
        | error u =>
          simp [hg, hd, svcListFromRepo_ok hc hf, Except.okB]
      | error u =>
        simp [hg, svcListFromRepo_ok hc hf, Except.okB]
    · simp [hp, svcListFromRepo_ok hc hf, Except.okB]

/-- C6 witness: with a configured cache whose every lookup, population and
invalidation fails, all five operations still succeed against a healthy
one-record store. -/
theorem cache_failures_never_escalate_witness :
    ((serviceFindByID failCache noFaults 1 ⟨[exLive], 0⟩).result).okB = true ∧
    ((serviceUpdate failCache noFaults ctxNever 20 1 exNew ⟨[exLive], 0⟩).result).okB = true ∧
    ((servicePatch failCache noFaults 20 1 [("preco", PVal.pNum 42)]
        ⟨[exLive], 0⟩).result).okB = true ∧
    ((serviceDelete failCache noFaults ctxNever 20 1 ⟨[exLive], 0⟩).result).okB = true ∧
    ((serviceFindAllPaginated failCache noFaults ⟨1, 10⟩ emptyFilterReq noSort
        ⟨[exLive], 0⟩).result).okB = true := by
  have h := cache_failures_never_escalate failCache noFaults ctxNever 20 1 exNew
    [("preco", PVal.pNum 42)] ⟨1, 10⟩ emptyFilterReq noSort ⟨[exLive], 0⟩
  refine ⟨?_, ?_, ?_, ?_, ?_⟩
  · exact h.1 exLive ⟨[exLive], 1⟩ (by decide) (by decide)
  · exact h.2.1 ⟨1, "Tablet", 999, "c", 5, 20, none⟩ (by decide) (by decide)
      (by decide) (by decide)
  · refine h.2.2.1 ⟨1, "Notebook", 42, "a", 5, 20, none⟩ (by decide) (by decide)
      ?_ (by decide)
    intro q hq
    simp [List.lookup] at hq
    rw [← hq]
    norm_num
  · exact h.2.2.2.1 (by decide) (by decide)
  · exact h.2.2.2.2 noSort 1 [exLive] ⟨[exLive], 1⟩ ⟨[exLive], 2⟩ (by decide)
      (by decide) (by decide)

/-! ## C9: soft delete is not idempotent -/

theorem updateFirst_of_none (pred : Produto → Bool) (f : Produto → Produto) :
    ∀ docs : List Produto, docs.find? pred = none → updateFirst pred f docs = (0, docs) := by
  intro docs
  induction docs with
  | nil => intro _; rfl
  | cons d ds ih =>
    intro h
    have hd : pred d = false := by
      by_cases hp : pred d = true
      · rw [List.find?_cons_of_pos _ hp] at h
        exact absurd h (by simp)
      · simpa using hp
    rw [List.find?_cons_of_neg _ (by simp [hd])] at h
    simp [updateFirst, hd, ih h]

/-- C9: when no live record carries the identifier — because the record is
already soft-deleted, or absent altogether — delete returns NotFoundError
(the repository's `UpdateOne` matches nothing, so the "not found" error is
surfaced without retry and mapped to the domain not-found error), and the
stored documents are unchanged: a second delete of the same identifier is
not a success. -/
theorem delete_not_idempotent
    (c : CacheModel) (now id : Int) (docs : List Produto)
    (hid : 0 < id)
    (habsent : docs.find? (fun d => filterMatches (liveIdFilter id) d) = none) :
    (serviceDelete c noFaults ctxNever now id ⟨docs, 0⟩).result =
      Except.error ApiErr.produtoNotFound ∧
    (serviceDelete c noFaults ctxNever now id ⟨docs, 0⟩).state.docs = docs ∧
    (repoDelete noFaults ctxNever now id ⟨docs, 0⟩).result =
      RetryResult.err (DBError.errString "not found") := by
  have hatt : deleteAttempt noFaults now id ⟨docs, 0⟩ =
      (some (DBError.errString "not found"), (⟨docs, 1⟩ : MongoState)) := by
    unfold deleteAttempt mongoRT noFaults
    simp [updateFirst_of_none _ _ docs habsent]
  have hrepo : repoDelete noFaults ctxNever now id ⟨docs, 0⟩ =
      ⟨1, [], .err (.errString "not found"), ⟨docs, 1⟩⟩ := by
    unfold repoDelete Retry
    rw [show DefaultRetryOptions.MaxAttempts.toNat = 2 + 1 from rfl]
    exact retryAux_fatal hatt rfl
  refine ⟨?_, ?_, by rw [hrepo]⟩
  · unfold serviceDelete
    rw [if_neg (by omega)]
    simp [hrepo, mapRepoErr, DBError.message]
  · unfold serviceDelete
    rw [if_neg (by omega)]
    simp [hrepo, mapRepoErr, DBError.message]

/-- C9 witness: deleting the already-soft-deleted record 2 and the absent
record 3 both yield NotFoundError and leave the store untouched. -/
theorem delete_not_idempotent_witness :
    ((serviceDelete failCache noFaults ctxNever 30 2 ⟨[exDead], 0⟩).result =
        Except.error ApiErr.produtoNotFound ∧
      (serviceDelete failCache noFaults ctxNever 30 2 ⟨[exDead], 0⟩).state.docs = [exDead] ∧
      (repoDelete noFaults ctxNever 30 2 ⟨[exDead], 0⟩).result =
        RetryResult.err (DBError.errString "not found")) ∧
    ((serviceDelete failCache noFaults ctxNever 30 3 ⟨[exLive], 0⟩).result =
        Except.error ApiErr.produtoNotFound ∧
      (serviceDelete failCache noFaults ctxNever 30 3 ⟨[exLive], 0⟩).state.docs = [exLive] ∧
      (repoDelete noFaults ctxNever 30 3 ⟨[exLive], 0⟩).result =
        RetryResult.err (DBError.errString "not found")) :=
  ⟨delete_not_idempotent failCache 30 2 [exDead] (by decide) (by decide),
    delete_not_idempotent failCache 30 3 [exLive] (by decide) (by decide)⟩
